import Mathlib

/-!
Shallow embedding of `src/validate_gem.py`, the package-structure
conformance validator of the rails-route-extractor repository.

The filesystem is modelled as a map from paths to file metadata
(decoded text content when readable, byte size, executable bit)
together with a directory predicate.  `validate_gem_structure`,
`count_lines_of_code` and `main` are translated from the Python
source; the traced variants additionally record which rules and
checks a run evaluates, so that the halting policies (collect-all
for the structural phase, abort-on-first-failure for the
content/size phase) can be stated.
-/

/-- Kind of a required item, mirroring the `'file'` / `'dir'` tags of
`required_items` in the source. -/
inductive ItemKind
  | file
  | dir
deriving DecidableEq, Repr

/-- Metadata of one on-disk regular file: its decoded text content
(`none` when the file cannot be opened or decoded, so a read raises in
Python), its byte size as `os.path.getsize` reports it, and whether the
process has execute permission on it. -/
structure FileInfo where
  content : Option String
  size : Nat
  executable : Bool
deriving DecidableEq, Repr

/-- A filesystem state relative to the package root: which paths are
regular files (with their metadata) and which are directories. -/
structure FS where
  files : String → Option FileInfo
  dirs : String → Bool

/-- Probe `os.path.isfile`. -/
def isfile (fs : FS) (p : String) : Bool :=
  (fs.files p).isSome

/-- Probe `os.path.isdir`. -/
def isdir (fs : FS) (p : String) : Bool :=
  fs.dirs p

/-- Probe `os.path.getsize` (only ever called behind an `isfile` guard in
the source; absent paths are given size 0 here). -/
def getsize (fs : FS) (p : String) : Nat :=
  match fs.files p with
  | some fi => fi.size
  | none => 0

/-- Probe `os.access(p, os.X_OK)`: false for an absent path. -/
def accessXOk (fs : FS) (p : String) : Bool :=
  match fs.files p with
  | some fi => fi.executable
  | none => false

/-- Result of `open(p).read()`: `none` when the path is absent or the
file cannot be opened or decoded (the Python `try` blocks catch this). -/
def readFile (fs : FS) (p : String) : Option String :=
  (fs.files p).bind (fun fi => fi.content)

/-- Whether `needle` occurs at the start of `haystack` (as char lists). -/
def isSubAt : List Char → List Char → Bool
  | [], _ => true
  | _ :: _, [] => false
  | a :: as, b :: bs => a == b && isSubAt as bs

/-- Whether `needle` occurs contiguously anywhere in the haystack. -/
def hasSub (needle : List Char) : List Char → Bool
  | [] => needle.isEmpty
  | b :: bs => isSubAt needle (b :: bs) || hasSub needle bs

/-- Python's substring test `marker in content`. -/
def strContains (haystack needle : String) : Bool :=
  hasSub needle.toList haystack.toList

/-- The 23 required files and directories, in declaration order
(lines 13-37 of the source). -/
def required_items : List (ItemKind × String) :=
  [(.file, "lib/route_extract.rb"),
   (.file, "lib/route_extract/version.rb"),
   (.file, "lib/route_extract/configuration.rb"),
   (.file, "lib/route_extract/route_analyzer.rb"),
   (.file, "lib/route_extract/code_extractor.rb"),
   (.file, "lib/route_extract/dependency_tracker.rb"),
   (.file, "lib/route_extract/gem_analyzer.rb"),
   (.file, "lib/route_extract/file_analyzer.rb"),
   (.file, "lib/route_extract/extract_manager.rb"),
   (.file, "lib/route_extract/cli.rb"),
   (.file, "lib/route_extract/railtie.rb"),
   (.dir, "lib/route_extract/generators"),
   (.dir, "lib/route_extract/tasks"),
   (.file, "exe/route_extract"),
   (.file, "route_extract.gemspec"),
   (.file, "README.md"),
   (.file, "LICENSE.txt"),
   (.file, "CHANGELOG.md"),
   (.file, "Gemfile"),
   (.file, "Rakefile"),
   (.dir, "spec"),
   (.dir, "docs"),
   (.dir, "examples")]

/-- One iteration of the structural loop (lines 41-45): the item just
examined is appended to the evaluation trace, and its "File:"/"Directory:"
label is appended to the missing list when the probe fails. -/
def structuralStep (fs : FS) (acc : List (ItemKind × String) × List String)
    (it : ItemKind × String) : List (ItemKind × String) × List String :=
  match it with
  | (.file, path) =>
      if isfile fs path then (acc.1 ++ [it], acc.2)
      else (acc.1 ++ [it], acc.2 ++ ["File: " ++ path])
  | (.dir, path) =>
      if isdir fs path then (acc.1 ++ [it], acc.2)
      else (acc.1 ++ [it], acc.2 ++ ["Directory: " ++ path])

/-- The whole structural loop: the trace of evaluated rules and the
accumulated `missing_items` list. -/
def runStructural (fs : FS) : List (ItemKind × String) × List String :=
  List.foldl (structuralStep fs) ([], []) required_items

/-- The `missing_items` list the structural loop builds. -/
def missing_items (fs : FS) : List String :=
  (runStructural fs).2

/-- The path-kind rules the structural loop evaluates, in order. -/
def structuralTrace (fs : FS) : List (ItemKind × String) :=
  (runStructural fs).1

/-- Whether a required item's probe succeeds. -/
def itemSatisfied (fs : FS) (it : ItemKind × String) : Bool :=
  match it with
  | (.file, path) => isfile fs path
  | (.dir, path) => isdir fs path

/-- The diagnostic label of a required item. -/
def itemLabel (it : ItemKind × String) : String :=
  match it with
  | (.file, path) => "File: " ++ path
  | (.dir, path) => "Directory: " ++ path

/-- What one structural rule contributes to `missing_items`. -/
def missOpt (fs : FS) (it : ItemKind × String) : Option String :=
  if itemSatisfied fs it then none else some (itemLabel it)

/-- The marker the version file must contain (line 62). -/
def versionMarker : String := "VERSION = \"0.1.0\""

/-- The `doc_files` list (line 92). -/
def doc_files : List String := ["docs/user_guide.md", "docs/api_reference.md"]

/-- The `example_files` list (line 101). -/
def example_files : List String :=
  ["examples/basic_usage.rb", "examples/advanced_usage.rb"]

/-- The `test_files` list (lines 110-116). -/
def test_files : List String :=
  ["spec/route_extract_spec.rb",
   "spec/route_extract/configuration_spec.rb",
   "spec/route_extract/route_analyzer_spec.rb",
   "spec/route_extract/cli_spec.rb",
   "spec/integration/basic_functionality_spec.rb"]

/-- The individual content/size checks of the second phase, one
constructor per kind of check in the source. -/
inductive Check
  | version
  | gemspec
  | execPerm
  | docFile (path : String)
  | exampleFile (path : String)
  | testFile (path : String)
deriving DecidableEq, Repr

/-- The fixed order in which the second phase runs its checks
(lines 55-122 of the source). -/
def contentChecks : List Check :=
  [Check.version, Check.gemspec, Check.execPerm]
    ++ doc_files.map Check.docFile
    ++ example_files.map Check.exampleFile
    ++ test_files.map Check.testFile

/-- Whether one content/size check passes, translated check by check
from the source: the version file must contain the version marker, the
gemspec must contain both `spec.name` and `route_extract`, the CLI
executable must have execute permission, documentation files must exist
with more than 1000 bytes, example and test files with more than 500. -/
def checkPasses (fs : FS) : Check → Bool
  | Check.version =>
      match readFile fs "lib/route_extract/version.rb" with
      | some c => strContains c versionMarker
      | none => false
  | Check.gemspec =>
      match readFile fs "route_extract.gemspec" with
      | some c => strContains c "spec.name" && strContains c "route_extract"
      | none => false
  | Check.execPerm => accessXOk fs "exe/route_extract"
  | Check.docFile p => isfile fs p && decide (1000 < getsize fs p)
  | Check.exampleFile p => isfile fs p && decide (500 < getsize fs p)
  | Check.testFile p => isfile fs p && decide (500 < getsize fs p)

/-- Run the content/size checks in order, returning the trace of checks
actually evaluated and the overall outcome.  Each `return False` of the
source aborts the phase, so a failing check is the last one evaluated. -/
def runChecks (fs : FS) : List Check → List Check × Bool
  | [] => ([], true)
  | c :: cs =>
      if checkPasses fs c then
        ((c :: (runChecks fs cs).1), (runChecks fs cs).2)
      else ([c], false)

/-- Outcome of one call of `validate_gem_structure`: the returned
boolean, the `missing_items` list, and the trace of content/size checks
evaluated. -/
structure VResult where
  ok : Bool
  missing : List String
  contentTrace : List Check
deriving DecidableEq, Repr

/-- The function `validate_gem_structure` with its evaluation trace: the structural
loop always runs in full; if `missing_items` is non-empty the function
returns `False` before any content check, otherwise the content/size
phase runs with its abort-on-first-failure policy. -/
def validateRun (fs : FS) : VResult :=
  let s := runStructural fs
  if s.2.isEmpty then
    let r := runChecks fs contentChecks
    ⟨r.2, s.2, r.1⟩
  else
    ⟨false, s.2, []⟩

/-- The boolean `validate_gem_structure` returns. -/
def validate_gem_structure (fs : FS) : Bool :=
  (validateRun fs).ok

/-- The content/size checks a run evaluates. -/
def contentTrace (fs : FS) : List Check :=
  (validateRun fs).contentTrace

/-- What `main` does: exit status, and whether the statistics phase
(`count_lines_of_code`) was executed. -/
structure MainResult where
  exitCode : Nat
  statsRan : Bool
deriving DecidableEq, Repr

/-- The function `main'` models `main` (lines 185-199): on a failed validation it exits with status 1
without running `count_lines_of_code`; otherwise the statistics run and
the process exits with status 0. -/
def main' (fs : FS) : MainResult :=
  if validate_gem_structure fs then ⟨0, true⟩ else ⟨1, false⟩

/-- One file met by an `os.walk` enumeration: the directory it sits in,
its basename, and the number of lines `readlines` yields (`none` when
reading raises, in which case the source skips the file). -/
structure WalkEntry where
  dir : String
  name : String
  lines : Option Nat
deriving DecidableEq, Repr

/-- One iteration of a counting loop of `count_lines_of_code`: a file
whose basename has the right extension and which can be read adds one to
the file count and its lines to the line count; every other file leaves
the accumulators unchanged. -/
def tallyStep (ext : String) (acc : Nat × Nat) (e : WalkEntry) : Nat × Nat :=
  if e.name.endsWith ext then
    match e.lines with
    | some n => (acc.1 + 1, acc.2 + n)
    | none => acc
  else acc

/-- One category's `(file_count, line_count)` pair. -/
def tally (ext : String) (walk : List WalkEntry) : Nat × Nat :=
  List.foldl (tallyStep ext) (0, 0) walk

/-- The function `count_lines_of_code`: the three independent walks (`lib` for `.rb`
source, `spec` for `.rb` tests, `docs` for `.md` documentation), each
producing a `(file_count, line_count)` pair. -/
def count_lines_of_code (libWalk specWalk docsWalk : List WalkEntry) :
    (Nat × Nat) × (Nat × Nat) × (Nat × Nat) :=
  (tally ".rb" libWalk, tally ".rb" specWalk, tally ".md" docsWalk)

/-- Whether a walk entry is counted by a category with extension `ext`. -/
def walkCounted (ext : String) (e : WalkEntry) : Bool :=
  e.name.endsWith ext && e.lines.isSome

/-- The lines a counted walk entry contributes. -/
def walkLines (e : WalkEntry) : Nat :=
  match e.lines with
  | some n => n
  | none => 0

/-- Build a filesystem state from an association list of files and a
list of directories. -/
def mkFS (fileList : List (String × FileInfo)) (dirList : List String) : FS :=
  ⟨fun p => fileList.lookup p, fun p => dirList.contains p⟩

/-- A plain readable file with the given content, size and no execute
permission. -/
def plainFile (c : String) (sz : Nat) : FileInfo :=
  ⟨some c, sz, false⟩

/-- A filesystem state on which every check of the source succeeds: all
23 required items present with their declared kinds, the version and
gemspec markers present, the CLI executable executable, and every
documentation/example/test file large enough.  The contents of
`lib/route_extract.rb` and `exe/route_extract` are deliberately empty:
no check of `src/validate_gem.py` ever reads them. -/
def goodFS : FS :=
  mkFS
    [("lib/route_extract.rb", plainFile "" 10),
     ("lib/route_extract/version.rb", plainFile "VERSION = \"0.1.0\"" 30),
     ("lib/route_extract/configuration.rb", plainFile "" 10),
     ("lib/route_extract/route_analyzer.rb", plainFile "" 10),
     ("lib/route_extract/code_extractor.rb", plainFile "" 10),
     ("lib/route_extract/dependency_tracker.rb", plainFile "" 10),
     ("lib/route_extract/gem_analyzer.rb", plainFile "" 10),
     ("lib/route_extract/file_analyzer.rb", plainFile "" 10),
     ("lib/route_extract/extract_manager.rb", plainFile "" 10),
     ("lib/route_extract/cli.rb", plainFile "" 10),
     ("lib/route_extract/railtie.rb", plainFile "" 10),
     ("exe/route_extract", ⟨some "", 10, true⟩),
     ("route_extract.gemspec", plainFile "spec.name = route_extract" 40),
     ("README.md", plainFile "" 10),
     ("LICENSE.txt", plainFile "" 10),
     ("CHANGELOG.md", plainFile "" 10),
     ("Gemfile", plainFile "" 10),
     ("Rakefile", plainFile "" 10),
     ("docs/user_guide.md", plainFile "" 1500),
     ("docs/api_reference.md", plainFile "" 1200),
     ("examples/basic_usage.rb", plainFile "" 600),
     ("examples/advanced_usage.rb", plainFile "" 600),
     ("spec/route_extract_spec.rb", plainFile "" 600),
     ("spec/route_extract/configuration_spec.rb", plainFile "" 600),
     ("spec/route_extract/route_analyzer_spec.rb", plainFile "" 600),
     ("spec/route_extract/cli_spec.rb", plainFile "" 600),
     ("spec/integration/basic_functionality_spec.rb", plainFile "" 600)]
    ["lib/route_extract/generators", "lib/route_extract/tasks",
     "spec", "docs", "examples"]

/-- Replace (or delete, with `none`) one file of a filesystem state. -/
def withFile (fs : FS) (p : String) (fi : Option FileInfo) : FS :=
  ⟨fun q => if q = p then fi else fs.files q, fs.dirs⟩

/-- Remove one directory from a filesystem state. -/
def withoutDir (fs : FS) (d : String) : FS :=
  ⟨fs.files, fun q => if q = d then false else fs.dirs q⟩

/-- State `goodFS` except that the CLI executable lacks execute permission. -/
def fsNoExec : FS :=
  withFile goodFS "exe/route_extract" (some ⟨some "", 10, false⟩)

/-- State `goodFS` except that the gemspec is absent and the `examples`
directory (declared after the gemspec) is also absent. -/
def fsNoGemspec : FS :=
  withoutDir (withFile goodFS "route_extract.gemspec" none) "examples"

/-- State `goodFS` except that the version file is present but has zero bytes
(its content is the empty string). -/
def fsEmptyVersion : FS :=
  withFile goodFS "lib/route_extract/version.rb" (some ⟨some "", 0, false⟩)

/-- Modelled from the spec: the repository's second validation script —
the one applying content assertions to the primary library entry file
(`lib/route_extract.rb`) and to the executable entry point
(`exe/route_extract`) — is not among the files under `src/`.  The spec
names the five assertions (a module-definition marker, an inter-file
inclusion marker, markers for two specific public operations, and a
dispatch-to-CLI marker) but not their literal strings, so the model is
parametric in the marker strings. -/
structure EntryMarkers where
  moduleDefinition : String
  interFileInclusion : String
  publicOperation1 : String
  publicOperation2 : String
  cliDispatch : String
deriving DecidableEq, Repr

/-- Modelled from the spec: the entry-point content assertions as
(path, marker) pairs — four on the primary library entry file, one on
the executable entry point. -/
def entryAssertions (m : EntryMarkers) : List (String × String) :=
  [("lib/route_extract.rb", m.moduleDefinition),
   ("lib/route_extract.rb", m.interFileInclusion),
   ("lib/route_extract.rb", m.publicOperation1),
   ("lib/route_extract.rb", m.publicOperation2),
   ("exe/route_extract", m.cliDispatch)]

/-- Modelled from the spec: a content assertion holds when its target
file can be read and contains the marker as a literal substring; an
unreadable or absent file never satisfies an assertion. -/
def contentAssertionHolds (fs : FS) (a : String × String) : Bool :=
  match readFile fs a.1 with
  | some c => strContains c a.2
  | none => false

/-- Modelled from the spec: the validation run extended with the
entry-point content assertions — it passes exactly when the checks of
`src/validate_gem.py` pass and every entry-point assertion holds. -/
def specValidateWithEntry (m : EntryMarkers) (fs : FS) : Bool :=
  validate_gem_structure fs && (entryAssertions m).all (contentAssertionHolds fs)

/-- A concrete instantiation of the entry-point markers, for use at
concrete inputs (the spec fixes their roles, not their spellings). -/
def sampleMarkers : EntryMarkers :=
  ⟨"module RouteExtract",
   "require \"route_extract/version\"",
   "def self.extract",
   "def self.list_routes",
   "RouteExtract::CLI.start"⟩

/-- A sample `lib` walk enumeration with two readable Ruby files. -/
def walkA : List WalkEntry :=
  [⟨"lib", "a.rb", some 3⟩, ⟨"lib", "b.rb", some 5⟩]

/-- The same two files enumerated in the opposite order. -/
def walkB : List WalkEntry :=
  [⟨"lib", "b.rb", some 5⟩, ⟨"lib", "a.rb", some 3⟩]

set_option maxRecDepth 8000

theorem structuralStep_eq (fs : FS) (a : List (ItemKind × String))
    (b : List String) (it : ItemKind × String) :
    structuralStep fs (a, b) it = (a ++ [it], b ++ (missOpt fs it).toList) := by
  obtain ⟨k, p⟩ := it
  cases k <;> simp only [structuralStep, missOpt, itemSatisfied, itemLabel] <;>
    split <;> simp

theorem runStructural_go (fs : FS) (l : List (ItemKind × String)) :
    ∀ (a : List (ItemKind × String)) (b : List String),
      List.foldl (structuralStep fs) (a, b) l =
        (a ++ l, b ++ l.filterMap (missOpt fs)) := by
  induction l with
  | nil => intro a b; simp
  | cons it rest ih =>
    intro a b
    rw [List.foldl_cons, structuralStep_eq, ih]
    cases h : missOpt fs it <;>
      simp [List.filterMap_cons, h, List.append_assoc]

theorem missing_items_eq (fs : FS) :
    missing_items fs = required_items.filterMap (missOpt fs) := by
  simp [missing_items, runStructural, runStructural_go]

theorem structuralTrace_eq (fs : FS) :
    structuralTrace fs = required_items := by
  simp [structuralTrace, runStructural, runStructural_go]

theorem runChecks_snd (fs : FS) (l : List Check) :
    (runChecks fs l).2 = l.all (checkPasses fs) := by
  induction l with
  | nil => rfl
  | cons c cs ih =>
    cases h : checkPasses fs c <;> simp [runChecks, h, ih]

theorem validate_eq (fs : FS) :
    validate_gem_structure fs =
      ((missing_items fs).isEmpty && contentChecks.all (checkPasses fs)) := by
  unfold validate_gem_structure validateRun
  cases h : (runStructural fs).2.isEmpty <;>
    simp [missing_items, h, runChecks_snd]

theorem runChecks_fst_of_all (fs : FS) (l : List Check)
    (h : l.all (checkPasses fs) = true) : (runChecks fs l).1 = l := by
  induction l with
  | nil => rfl
  | cons c cs ih =>
    simp only [List.all_cons, Bool.and_eq_true] at h
    simp [runChecks, h.1, ih h.2]

theorem runChecks_fst_of_fail (fs : FS) (l : List Check)
    (h : l.all (checkPasses fs) = false) :
    (runChecks fs l).1 =
      l.takeWhile (checkPasses fs) ++ (l.dropWhile (checkPasses fs)).take 1 := by
  induction l with
  | nil => simp at h
  | cons c cs ih =>
    cases hc : checkPasses fs c with
    | true =>
      simp only [List.all_cons, hc, Bool.true_and] at h
      simp [runChecks, hc, List.takeWhile_cons, List.dropWhile_cons, ih h]
    | false =>
      simp [runChecks, hc, List.takeWhile_cons, List.dropWhile_cons]

theorem tally_go (ext : String) (w : List WalkEntry) :
    ∀ a b : Nat,
      List.foldl (tallyStep ext) (a, b) w =
        (a + (w.filter (walkCounted ext)).length,
         b + ((w.filter (walkCounted ext)).map walkLines).sum) := by
  induction w with
  | nil => intro a b; simp
  | cons e rest ih =>
    intro a b
    rw [List.foldl_cons]
    cases he : e.name.endsWith ext with
    | false =>
      have hw : walkCounted ext e = false := by simp [walkCounted, he]
      simp [tallyStep, he, hw, ih]
    | true =>
      cases hl : e.lines with
      | none =>
        have hw : walkCounted ext e = false := by simp [walkCounted, he, hl]
        simp [tallyStep, he, hl, hw, ih]
      | some n =>
        have hw : walkCounted ext e = true := by simp [walkCounted, he, hl]
        have hwl : walkLines e = n := by simp [walkLines, hl]
        rw [show tallyStep ext (a, b) e = (a + 1, b + n) by
          simp [tallyStep, he, hl]]
        rw [ih]
        simp [hw, hwl, List.filter_cons]
        constructor <;> omega

theorem tally_eq (ext : String) (w : List WalkEntry) :
    tally ext w =
      ((w.filter (walkCounted ext)).length,
       ((w.filter (walkCounted ext)).map walkLines).sum) := by
  simpa using tally_go ext w 0 0

theorem tally_perm (ext : String) {w₁ w₂ : List WalkEntry}
    (h : w₁.Perm w₂) : tally ext w₁ = tally ext w₂ := by
  rw [tally_eq, tally_eq]
  have hf := h.filter (walkCounted ext)
  rw [hf.length_eq, (hf.map walkLines).sum_eq]

theorem strContains_empty_left (m : String) (hm : 0 < m.length) :
    strContains "" m = false := by
  have hd : m.data ≠ [] := by
    intro h
    have : m.length = 0 := by simp [String.length, h]
    omega
  show hasSub m.toList [] = false
  rw [show hasSub m.toList [] = m.toList.isEmpty from rfl]
  cases h : m.toList with
  | nil => exact absurd (by simpa [String.toList] using h) hd
  | cons a l => rfl

theorem filterMap_missOpt (fs : FS) (l : List (ItemKind × String)) :
    l.filterMap (missOpt fs) =
      (l.filter (fun it => !itemSatisfied fs it)).map itemLabel := by
  induction l with
  | nil => rfl
  | cons it rest ih =>
    cases h : itemSatisfied fs it <;>
      simp [List.filterMap_cons, List.filter_cons, missOpt, h, ih]

theorem required_labels_nodup : (required_items.map itemLabel).Nodup := by decide

theorem check_false_validate_false (fs : FS) {c : Check}
    (hc : c ∈ contentChecks) (h : checkPasses fs c = false) :
    validate_gem_structure fs = false := by
  rw [validate_eq]
  have hall : contentChecks.all (checkPasses fs) = false := by
    cases hv : contentChecks.all (checkPasses fs) with
    | false => rfl
    | true => exact absurd (List.all_eq_true.mp hv c hc) (by simp [h])
  simp [hall]

theorem missing_nonempty_validate_false (fs : FS)
    (h : missing_items fs ≠ []) : validate_gem_structure fs = false := by
  rw [validate_eq]
  have hie : (missing_items fs).isEmpty = false := by
    cases hh : missing_items fs with
    | nil => exact absurd hh h
    | cons a l => rfl
  simp [hie]

/-- C2: a filesystem state missing at least one required path (or having
it with the wrong kind) makes `validate_gem_structure` return `False`,
makes the process exit with a nonzero status, and puts every missing
path into `missing_items` exactly once, in declaration order, with its
"File:"/"Directory:" label. -/
theorem missing_items_reported (fs : FS)
    (h : ∃ it ∈ required_items, itemSatisfied fs it = false) :
    validate_gem_structure fs = false ∧
    (main' fs).exitCode = 1 ∧
    missing_items fs =
      (required_items.filter (fun it => !itemSatisfied fs it)).map itemLabel ∧
    ∀ it ∈ required_items, itemSatisfied fs it = false →
      (missing_items fs).count (itemLabel it) = 1 := by
  obtain ⟨it0, hmem0, hsat0⟩ := h
  have hmiss : missing_items fs =
      (required_items.filter (fun it => !itemSatisfied fs it)).map itemLabel := by
    rw [missing_items_eq, filterMap_missOpt]
  have hne : missing_items fs ≠ [] := by
    rw [hmiss]
    intro hnil
    have hf : it0 ∈ required_items.filter (fun it => !itemSatisfied fs it) :=
      List.mem_filter.mpr ⟨hmem0, by simp [hsat0]⟩
    have hm := List.mem_map_of_mem itemLabel hf
    rw [hnil] at hm
    exact absurd hm (List.not_mem_nil _)
  have hval := missing_nonempty_validate_false fs hne
  refine ⟨hval, by simp [main', hval], hmiss, ?_⟩
  intro it hmem hsat
  rw [hmiss]
  have hsub : List.Sublist
      ((required_items.filter (fun it => !itemSatisfied fs it)).map itemLabel)
      (required_items.map itemLabel) :=
    (List.filter_sublist _).map itemLabel
  have hnodup := List.Nodup.sublist hsub required_labels_nodup
  exact List.count_eq_one_of_mem hnodup
    (List.mem_map_of_mem _ (List.mem_filter.mpr ⟨hmem, by simp [hsat]⟩))

/-- Witness for the missing-items reporting theorem at a concrete state
missing the gemspec and the `examples` directory. -/
theorem missing_items_reported_witness :
    validate_gem_structure fsNoGemspec = false ∧
    (main' fsNoGemspec).exitCode = 1 ∧
    missing_items fsNoGemspec =
      (required_items.filter
        (fun it => !itemSatisfied fsNoGemspec it)).map itemLabel ∧
    ∀ it ∈ required_items, itemSatisfied fsNoGemspec it = false →
      (missing_items fsNoGemspec).count (itemLabel it) = 1 :=
  missing_items_reported fsNoGemspec
    ⟨(ItemKind.file, "route_extract.gemspec"), by decide, by decide⟩

/-- C3: when the structural phase finds anything missing, every
path-kind rule was still evaluated (the trace is the whole rule list),
but the run then stops: the verdict is `False`, no content/size check is
evaluated, the statistics phase never runs, and the exit status is 1. -/
theorem structural_fail_stops_run (fs : FS) (h : missing_items fs ≠ []) :
    structuralTrace fs = required_items ∧
    validate_gem_structure fs = false ∧
    contentTrace fs = [] ∧
    (main' fs).statsRan = false ∧
    (main' fs).exitCode = 1 := by
  have hval := missing_nonempty_validate_false fs h
  have hie : (runStructural fs).2.isEmpty = false := by
    cases hh : (runStructural fs).2 with
    | nil => exact absurd hh h
    | cons a l => rfl
  exact ⟨structuralTrace_eq fs, hval, by simp [contentTrace, validateRun, hie],
    by simp [main', hval], by simp [main', hval]⟩

/-- Witness for the collect-all-then-stop theorem at a concrete state
with two missing items. -/
theorem structural_fail_stops_run_witness :
    structuralTrace fsNoGemspec = required_items ∧
    validate_gem_structure fsNoGemspec = false ∧
    contentTrace fsNoGemspec = [] ∧
    (main' fsNoGemspec).statsRan = false ∧
    (main' fsNoGemspec).exitCode = 1 :=
  structural_fail_stops_run fsNoGemspec (by decide)

/-- C4: when the structural phase is clean but some content/size check
fails, the run returns `False`, the checks evaluated are exactly the
passing ones up to and including the first failing check, and no check
after the first failure (in the fixed order) is evaluated; the
statistics phase never runs. -/
theorem content_abort_on_first_failure (fs : FS)
    (h1 : missing_items fs = [])
    (h2 : ∃ c ∈ contentChecks, checkPasses fs c = false) :
    validate_gem_structure fs = false ∧
    contentTrace fs =
      contentChecks.takeWhile (checkPasses fs) ++
        (contentChecks.dropWhile (checkPasses fs)).take 1 ∧
    (∀ c ∈ (contentChecks.dropWhile (checkPasses fs)).drop 1,
      c ∉ contentTrace fs) ∧
    (main' fs).statsRan = false := by
  obtain ⟨c0, hc0, hf0⟩ := h2
  have hall : contentChecks.all (checkPasses fs) = false := by
    cases hv : contentChecks.all (checkPasses fs) with
    | false => rfl
    | true => exact absurd (List.all_eq_true.mp hv c0 hc0) (by simp [hf0])
  have hie : (runStructural fs).2.isEmpty = true := by
    rw [show (runStructural fs).2 = missing_items fs from rfl, h1]
    rfl
  have hval : validate_gem_structure fs = false := by
    rw [validate_eq]
    simp [hall]
  have htr : contentTrace fs =
      contentChecks.takeWhile (checkPasses fs) ++
        (contentChecks.dropWhile (checkPasses fs)).take 1 := by
    simp only [contentTrace, validateRun, hie, if_true]
    exact runChecks_fst_of_fail fs _ hall
  refine ⟨hval, htr, ?_, by simp [main', hval]⟩
  have hnodup : contentChecks.Nodup := by decide
  have hdecomp : contentChecks =
      contentChecks.takeWhile (checkPasses fs) ++
        ((contentChecks.dropWhile (checkPasses fs)).take 1 ++
          (contentChecks.dropWhile (checkPasses fs)).drop 1) := by
    rw [List.take_append_drop, List.takeWhile_append_dropWhile]
  rw [hdecomp] at hnodup
  obtain ⟨hn1, hn2, hdisj⟩ := List.nodup_append.mp hnodup
  obtain ⟨hn21, hn22, hdisj2⟩ := List.nodup_append.mp hn2
  intro c hc hmem
  rw [htr] at hmem
  rcases List.mem_append.mp hmem with hm1 | hm2
  · exact hdisj hm1 (List.mem_append_right _ hc)
  · exact hdisj2 hm2 hc

/-- Witness for the abort-on-first-failure theorem at a concrete state
whose version file is empty. -/
theorem content_abort_on_first_failure_witness :
    validate_gem_structure fsEmptyVersion = false ∧
    contentTrace fsEmptyVersion =
      contentChecks.takeWhile (checkPasses fsEmptyVersion) ++
        (contentChecks.dropWhile (checkPasses fsEmptyVersion)).take 1 ∧
    (∀ c ∈ (contentChecks.dropWhile (checkPasses fsEmptyVersion)).drop 1,
      c ∉ contentTrace fsEmptyVersion) ∧
    (main' fsEmptyVersion).statsRan = false :=
  content_abort_on_first_failure fsEmptyVersion (by decide)
    ⟨Check.version, by decide, by decide⟩

/-- C6 counterexample: with the gemspec absent, the structural loop does
not exit early — it still evaluates all 23 rules, records a later item
(`examples`) as missing too, and fails through the ordinary
missing-items path, so there is no distinct pre-phase exit for the
gemspec. -/
theorem gemspec_no_early_exit_counterexample :
    missing_items fsNoGemspec =
      ["File: route_extract.gemspec", "Directory: examples"] ∧
    structuralTrace fsNoGemspec = required_items ∧
    validate_gem_structure fsNoGemspec = false ∧
    (main' fsNoGemspec).exitCode = 1 := by decide

/-- C6 (amended): an absent gemspec is handled by the ordinary
rule-by-rule structural phase like any other required item — all rules
are still evaluated, "File: route_extract.gemspec" is recorded in the
missing-items list, and the run fails with exit status 1 after the full
loop; there is no distinct early exit path. -/
theorem gemspec_missing_ordinary_path (fs : FS)
    (h : isfile fs "route_extract.gemspec" = false) :
    structuralTrace fs = required_items ∧
    "File: route_extract.gemspec" ∈ missing_items fs ∧
    validate_gem_structure fs = false ∧
    (main' fs).exitCode = 1 := by
  have hmem : ("File: route_extract.gemspec" : String) ∈ missing_items fs := by
    rw [missing_items_eq]
    refine List.mem_filterMap.mpr
      ⟨(ItemKind.file, "route_extract.gemspec"), by decide, ?_⟩
    simp [missOpt, itemSatisfied, itemLabel, h]
  have hne : missing_items fs ≠ [] := List.ne_nil_of_mem hmem
  have hval := missing_nonempty_validate_false fs hne
  exact ⟨structuralTrace_eq fs, hmem, hval, by simp [main', hval]⟩

/-- Witness for the amended gemspec handling at a concrete state. -/
theorem gemspec_missing_ordinary_path_witness :
    structuralTrace fsNoGemspec = required_items ∧
    "File: route_extract.gemspec" ∈ missing_items fsNoGemspec ∧
    validate_gem_structure fsNoGemspec = false ∧
    (main' fsNoGemspec).exitCode = 1 :=
  gemspec_missing_ordinary_path fsNoGemspec (by decide)

/-- C1 counterexample: a concrete state in which all 23 required items
are present with their declared kinds, the version and gemspec markers
are present, and every documentation/example/test size threshold is met,
yet `validate_gem_structure` returns `False` — because the CLI
executable lacks execute permission, a check the claim's hypotheses
omit. -/
theorem exec_permission_counterexample :
    missing_items fsNoExec = [] ∧
    checkPasses fsNoExec Check.version = true ∧
    checkPasses fsNoExec Check.gemspec = true ∧
    (doc_files.map Check.docFile ++ example_files.map Check.exampleFile ++
      test_files.map Check.testFile).all (checkPasses fsNoExec) = true ∧
    validate_gem_structure fsNoExec = false := by decide

/-- C1 (amended): if additionally the CLI executable has execute
permission, a state satisfying all of the claim's hypotheses makes
`validate_gem_structure` return `True` with an empty missing-items
list. -/
theorem validate_pass_amended (fs : FS)
    (hstruct : ∀ it ∈ required_items, itemSatisfied fs it = true)
    (hver : ∃ c, readFile fs "lib/route_extract/version.rb" = some c ∧
      strContains c versionMarker = true)
    (hgem : ∃ c, readFile fs "route_extract.gemspec" = some c ∧
      strContains c "spec.name" = true ∧ strContains c "route_extract" = true)
    (hexec : accessXOk fs "exe/route_extract" = true)
    (hdoc : ∀ p ∈ doc_files, isfile fs p = true ∧ 1000 < getsize fs p)
    (hex : ∀ p ∈ example_files, isfile fs p = true ∧ 500 < getsize fs p)
    (htest : ∀ p ∈ test_files, isfile fs p = true ∧ 500 < getsize fs p) :
    validate_gem_structure fs = true ∧ missing_items fs = [] := by
  have hmiss : missing_items fs = [] := by
    rw [missing_items_eq]
    refine List.filterMap_eq_nil_iff.mpr ?_
    intro it hit
    simp [missOpt, hstruct it hit]
  have hall : ∀ c ∈ contentChecks, checkPasses fs c = true := by
    intro c hc
    fin_cases hc
    · obtain ⟨s, hs, hm⟩ := hver
      simp [checkPasses, hs, hm]
    · obtain ⟨s, hs, h1, h2⟩ := hgem
      simp [checkPasses, hs, h1, h2]
    · simpa [checkPasses] using hexec
    · obtain ⟨hf, hsz⟩ := hdoc "docs/user_guide.md" (by decide)
      simp [checkPasses, hf, hsz]
    · obtain ⟨hf, hsz⟩ := hdoc "docs/api_reference.md" (by decide)
      simp [checkPasses, hf, hsz]
    · obtain ⟨hf, hsz⟩ := hex "examples/basic_usage.rb" (by decide)
      simp [checkPasses, hf, hsz]
    · obtain ⟨hf, hsz⟩ := hex "examples/advanced_usage.rb" (by decide)
      simp [checkPasses, hf, hsz]
    · obtain ⟨hf, hsz⟩ := htest "spec/route_extract_spec.rb" (by decide)
      simp [checkPasses, hf, hsz]
    · obtain ⟨hf, hsz⟩ := htest "spec/route_extract/configuration_spec.rb" (by decide)
      simp [checkPasses, hf, hsz]
    · obtain ⟨hf, hsz⟩ := htest "spec/route_extract/route_analyzer_spec.rb" (by decide)
      simp [checkPasses, hf, hsz]
    · obtain ⟨hf, hsz⟩ := htest "spec/route_extract/cli_spec.rb" (by decide)
      simp [checkPasses, hf, hsz]
    · obtain ⟨hf, hsz⟩ := htest "spec/integration/basic_functionality_spec.rb" (by decide)
      simp [checkPasses, hf, hsz]
  refine ⟨?_, hmiss⟩
  rw [validate_eq, hmiss]
  simp [List.all_eq_true.mpr hall]

/-- Witness for the amended pass theorem at the fully conformant
concrete state. -/
theorem validate_pass_amended_witness :
    validate_gem_structure goodFS = true ∧ missing_items goodFS = [] :=
  validate_pass_amended goodFS (by decide)
    ⟨"VERSION = \"0.1.0\"", by decide, by decide⟩
    ⟨"spec.name = route_extract", by decide, by decide, by decide⟩
    (by decide) (by decide) (by decide) (by decide)

/-- C5: for any non-empty module-definition and dispatch-to-CLI markers,
there is a filesystem state (`goodFS`) passing every check of
`src/validate_gem.py` on which the entry-point assertions modelled from
the spec fail — the primary library entry file lacking the
module-definition marker, or the executable entry point lacking the
dispatch-to-CLI marker, makes the extended validation run fail; and the
extended run passes only when every entry-point assertion holds. -/
theorem entry_marker_checks (m : EntryMarkers)
    (hmod : 0 < m.moduleDefinition.length)
    (hcli : 0 < m.cliDispatch.length) :
    (validate_gem_structure goodFS = true ∧
      contentAssertionHolds goodFS
        ("lib/route_extract.rb", m.moduleDefinition) = false ∧
      specValidateWithEntry m goodFS = false) ∧
    contentAssertionHolds goodFS ("exe/route_extract", m.cliDispatch) = false ∧
    (∀ fs : FS, specValidateWithEntry m fs = true →
      validate_gem_structure fs = true ∧
      (entryAssertions m).all (contentAssertionHolds fs) = true) := by
  have hlib : readFile goodFS "lib/route_extract.rb" = some "" := by decide
  have hexe : readFile goodFS "exe/route_extract" = some "" := by decide
  have h1 : contentAssertionHolds goodFS
      ("lib/route_extract.rb", m.moduleDefinition) = false := by
    simp only [contentAssertionHolds, hlib]
    exact strContains_empty_left _ hmod
  have h2 : contentAssertionHolds goodFS
      ("exe/route_extract", m.cliDispatch) = false := by
    simp only [contentAssertionHolds, hexe]
    exact strContains_empty_left _ hcli
  refine ⟨⟨by decide, h1, ?_⟩, h2, ?_⟩
  · simp [specValidateWithEntry, entryAssertions, h1]
  · intro fs hpass
    simpa [specValidateWithEntry, Bool.and_eq_true] using hpass

/-- Witness for the entry-point marker theorem at concrete marker
strings. -/
theorem entry_marker_checks_witness :
    (validate_gem_structure goodFS = true ∧
      contentAssertionHolds goodFS
        ("lib/route_extract.rb", sampleMarkers.moduleDefinition) = false ∧
      specValidateWithEntry sampleMarkers goodFS = false) ∧
    contentAssertionHolds goodFS
      ("exe/route_extract", sampleMarkers.cliDispatch) = false ∧
    (∀ fs : FS, specValidateWithEntry sampleMarkers fs = true →
      validate_gem_structure fs = true ∧
      (entryAssertions sampleMarkers).all
        (contentAssertionHolds fs) = true) :=
  entry_marker_checks sampleMarkers (by decide) (by decide)

/-- C7: `count_lines_of_code` is idempotent (two runs on the same walks
yield the same per-category pairs) and order-independent (permuting any
walk's enumeration order leaves every pair unchanged). -/
theorem count_lines_idempotent_order_independent
    (lib1 spec1 docs1 lib2 spec2 docs2 : List WalkEntry)
    (hl : lib1.Perm lib2) (hs : spec1.Perm spec2) (hd : docs1.Perm docs2) :
    count_lines_of_code lib1 spec1 docs1 =
      count_lines_of_code lib1 spec1 docs1 ∧
    count_lines_of_code lib1 spec1 docs1 =
      count_lines_of_code lib2 spec2 docs2 := by
  refine ⟨rfl, ?_⟩
  simp only [count_lines_of_code]
  rw [tally_perm _ hl, tally_perm _ hs, tally_perm _ hd]

/-- Witness for the line-counter theorem on two concrete enumerations of
the same two files. -/
theorem count_lines_witness :
    count_lines_of_code walkA [] [] = count_lines_of_code walkA [] [] ∧
    count_lines_of_code walkA [] [] = count_lines_of_code walkB [] [] :=
  count_lines_idempotent_order_independent walkA [] [] walkB [] []
    (List.Perm.swap _ _ _) (List.Perm.refl _) (List.Perm.refl _)

/-- C8: a zero-byte readable file never satisfies a non-empty-marker
content assertion and never raises — the containment test on the empty
content is `false` for every non-empty marker, a zero-byte (or
unreadable: `readFile` is `none`) version file makes the version check
`false`, and the run's verdict is Fail, not a propagated fault (the
embedding is total). -/
theorem zero_byte_never_matches (m : String) (hm : 0 < m.length) (fs : FS)
    (hz : readFile fs "lib/route_extract/version.rb" = some "" ∨
      readFile fs "lib/route_extract/version.rb" = none) :
    strContains "" m = false ∧
    checkPasses fs Check.version = false ∧
    validate_gem_structure fs = false := by
  have h1 := strContains_empty_left m hm
  have h2 : checkPasses fs Check.version = false := by
    rcases hz with hz | hz
    · simp only [checkPasses, hz]
      decide
    · simp [checkPasses, hz]
  exact ⟨h1, h2, check_false_validate_false fs (by decide) h2⟩

/-- Witness for the zero-byte theorem at a concrete state whose version
file is empty. -/
theorem zero_byte_never_matches_witness :
    strContains "" "x" = false ∧
    checkPasses fsEmptyVersion Check.version = false ∧
    validate_gem_structure fsEmptyVersion = false :=
  zero_byte_never_matches "x" (by decide) fsEmptyVersion (Or.inl (by decide))

/-- C9: the size checks are strict comparisons against the fixed
constants — a documentation file's check passes iff the file exists and
its size exceeds 1000 bytes (so a 1500-byte file passes and a 200-byte
file fails), and an example or test file's check passes iff it exists
and its size exceeds 500 bytes; each such check is part of the run's
fixed check list. -/
theorem size_checks_strict (fs : FS) (p q r : String)
    (hp : p ∈ doc_files) (hq : q ∈ example_files) (hr : r ∈ test_files) :
    (Check.docFile p ∈ contentChecks ∧
      (checkPasses fs (Check.docFile p) = true ↔
        isfile fs p = true ∧ 1000 < getsize fs p)) ∧
    (Check.exampleFile q ∈ contentChecks ∧
      (checkPasses fs (Check.exampleFile q) = true ↔
        isfile fs q = true ∧ 500 < getsize fs q)) ∧
    (Check.testFile r ∈ contentChecks ∧
      (checkPasses fs (Check.testFile r) = true ↔
        isfile fs r = true ∧ 500 < getsize fs r)) ∧
    (isfile fs p = true → getsize fs p = 1500 →
      checkPasses fs (Check.docFile p) = true) ∧
    (getsize fs p = 200 → checkPasses fs (Check.docFile p) = false) := by
  refine ⟨⟨?_, ?_⟩, ⟨?_, ?_⟩, ⟨?_, ?_⟩, ?_, ?_⟩
  · exact List.mem_append_left _ (List.mem_append_left _
      (List.mem_append_right _ (List.mem_map_of_mem _ hp)))
  · simp [checkPasses]
  · exact List.mem_append_left _
      (List.mem_append_right _ (List.mem_map_of_mem _ hq))
  · simp [checkPasses]
  · exact List.mem_append_right _ (List.mem_map_of_mem _ hr)
  · simp [checkPasses]
  · intro h1 h2
    simp [checkPasses, h1, h2]
  · intro h2
    simp [checkPasses, h2]

/-- Witness for the strict size-check theorem at one file of each
category. -/
theorem size_checks_strict_witness :
    (Check.docFile "docs/user_guide.md" ∈ contentChecks ∧
      (checkPasses goodFS (Check.docFile "docs/user_guide.md") = true ↔
        isfile goodFS "docs/user_guide.md" = true ∧
          1000 < getsize goodFS "docs/user_guide.md")) ∧
    (Check.exampleFile "examples/basic_usage.rb" ∈ contentChecks ∧
      (checkPasses goodFS (Check.exampleFile "examples/basic_usage.rb") = true ↔
        isfile goodFS "examples/basic_usage.rb" = true ∧
          500 < getsize goodFS "examples/basic_usage.rb")) ∧
    (Check.testFile "spec/route_extract_spec.rb" ∈ contentChecks ∧
      (checkPasses goodFS (Check.testFile "spec/route_extract_spec.rb") = true ↔
        isfile goodFS "spec/route_extract_spec.rb" = true ∧
          500 < getsize goodFS "spec/route_extract_spec.rb")) ∧
    (isfile goodFS "docs/user_guide.md" = true →
      getsize goodFS "docs/user_guide.md" = 1500 →
      checkPasses goodFS (Check.docFile "docs/user_guide.md") = true) ∧
    (getsize goodFS "docs/user_guide.md" = 200 →
      checkPasses goodFS (Check.docFile "docs/user_guide.md") = false) :=
  size_checks_strict goodFS "docs/user_guide.md" "examples/basic_usage.rb"
    "spec/route_extract_spec.rb" (by decide) (by decide) (by decide)

/-- C10: the gemspec content check passes exactly when the gemspec can
be read and its content contains both `spec.name` and `route_extract`
as literal substrings; a readable gemspec whose content lacks either
substring makes the whole run fail. -/
theorem gemspec_check_characterization (fs : FS) :
    (checkPasses fs Check.gemspec = true ↔
      ∃ c, readFile fs "route_extract.gemspec" = some c ∧
        strContains c "spec.name" = true ∧
        strContains c "route_extract" = true) ∧
    (∀ c, readFile fs "route_extract.gemspec" = some c →
      (strContains c "spec.name" && strContains c "route_extract") = false →
      validate_gem_structure fs = false) := by
  constructor
  · cases h : readFile fs "route_extract.gemspec" with
    | none => simp [checkPasses, h]
    | some c =>
      simp only [checkPasses, h, Bool.and_eq_true]
      constructor
      · intro hh
        exact ⟨c, rfl, hh.1, hh.2⟩
      · rintro ⟨c', hc', hs1, hs2⟩
        cases hc'
        exact ⟨hs1, hs2⟩
  · intro c hc hff
    have hgf : checkPasses fs Check.gemspec = false := by
      simp [checkPasses, hc, hff]
    exact check_false_validate_false fs (by decide) hgf
